import Mathlib

/-!
Verification of the pathfinding core of osrs-nav (src/pathfinder/src/lib.rs).

The `model` crate (Coordinate, Vertex, RegionCache, the DIRECTIONS and WIDTH
constants) is not part of the sources available here, so those pieces are
modelled from the spec; everything in `dijkstra` and `flood` is translated
from src/pathfinder/src/lib.rs.  Machine integers are Nat with explicit
reduction modulo 2^32 where the Rust code performs wrapping u32 arithmetic.
Rust panics (out-of-bounds Vec indexing, Option::unwrap on None) appear as
explicit `panicked` outcomes.  The unbounded `while` loops take a fuel
argument; running out of fuel is a distinguished outcome, never confused
with a genuine result.
-/

/-- u32::MAX, the unreached / no-predecessor sentinel. -/
def U32MAX : Nat := 4294967295

/-- 2^32, the modulus of wrapping u32 arithmetic. -/
def U32MOD : Nat := 4294967296

/-- Wrapping u32 addition. -/
def wadd (a b : Nat) : Nat := (a + b) % U32MOD

/-- Wrapping u32 multiplication. -/
def wmul (a b : Nat) : Nat := (a * b) % U32MOD

/-- `z as u32` on a signed integer: two's-complement reduction into 0..2^32. -/
def u32ofInt (z : Int) : Nat := (z % (U32MOD : Int)).toNat

/-- Modelled from the spec: a Coordinate is convertible losslessly to/from a
linear cell index given the grid's fixed width; the core only ever uses the
index, so the model carries the index itself. -/
structure Coordinate where
  index : Nat
deriving DecidableEq, Repr

/-- Coordinate::from_index. -/
def Coordinate.from_index (i : Nat) : Coordinate := ⟨i⟩

/-- Modelled from the spec: a Requirement is an opaque predicate over a
GameState snapshot; the core only calls it.  Requirements are named by
numbers and a GameState says which of them hold. -/
def Requirement : Type := Nat

instance : DecidableEq Requirement := fun (a b : Nat) => inferInstanceAs (Decidable (a = b))

instance : Repr Requirement := inferInstanceAs (Repr Nat)

/-- Modelled from the spec: the player-state snapshot, consumed only through
`Requirement.is_met`. -/
def GameState : Type := Requirement → Bool

/-- Requirement::is_met — the core never inspects the predicate's structure. -/
def Requirement.is_met (r : Requirement) (gs : GameState) : Bool := gs r

/-- A directed Edge of the NavGrid: destination, non-negative u32 cost,
requirement list and an opaque definition payload (modelled by a number)
returned to the caller. -/
structure Edge where
  destination : Coordinate
  cost : Nat
  requirements : List Requirement
  definition : Nat
deriving DecidableEq, Repr

/-- Modelled from the spec: a Cell/vertex carries a passability bitmask, a
connectivity-group id and a flag marking the presence of extra edges.  The
bit-packing of the real model crate is unknown, so the three components are
separate fields accessed through the methods the source calls. -/
structure Vertex where
  flags : Nat
  group : Nat
  extra_edges : Bool
deriving DecidableEq, Repr

/-- Vertex::get_group. -/
def Vertex.get_group (v : Vertex) : Nat := v.group

/-- Vertex::has_extra_edges. -/
def Vertex.has_extra_edges (v : Vertex) : Bool := v.extra_edges

/-- The NavGrid: all vertices, the multimap from cell index to extra edges
(get_vec returns None for an absent key), and the teleport list. -/
structure NavGrid where
  vertices : List Vertex
  edges : List (Nat × List Edge)
  teleports : List Edge

/-- MultiMap::get_vec — None when the key has no entry. -/
def NavGrid.get_vec (g : NavGrid) (index : Nat) : Option (List Edge) :=
  g.edges.lookup index

/-- Modelled from the spec: DIRECTIONS from the missing model crate's
constants — eight compass directions as (flag bit, dx, dy) with one mask bit
per direction; the exact bit/direction assignment is not recoverable from
the sources available, so an arbitrary fixed one is used. -/
def DIRECTIONS : List (Nat × Int × Int) :=
  [(1, -1, 0), (2, 1, 0), (4, 0, -1), (8, 0, 1),
   (16, -1, -1), (32, 1, -1), (64, -1, 1), (128, 1, 1)]

/-- The neighbor-index computation `index + (WIDTH * dy as u32) + dx as u32`
of lines 81 and 120, with every operation wrapping u32 arithmetic.  WIDTH is
the grid's fixed width, a constant of the missing model crate, threaded as a
parameter. -/
def adjOf (W index : Nat) (dx dy : Int) : Nat :=
  wadd (wadd index (wmul W (u32ofInt dy))) (u32ofInt dx)

/-- The per-cell scratch entry of dijkstra (struct DijkstraCacheState). -/
structure DijkstraCacheState where
  cost : Nat
  prev : Nat
  edge : Option Edge
deriving DecidableEq, Repr

/-- A frontier entry (struct DijkstraQueueState). -/
structure DijkstraQueueState where
  cost : Nat
  index : Nat
deriving DecidableEq, Repr

/-- u32::cmp. -/
def natCompare (a b : Nat) : Ordering :=
  if a < b then Ordering.lt else if a = b then Ordering.eq else Ordering.gt

/-- The Ord impl of DijkstraQueueState (lines 29-33):
`other.cost.cmp(&self.cost).then_with(|| self.index.cmp(&other.index))`. -/
def DQScmp (a b : DijkstraQueueState) : Ordering :=
  match natCompare b.cost a.cost with
  | Ordering.eq => natCompare a.index b.index
  | o => o

/-- BinaryHeap::push, modelling the heap by the list of its elements. -/
def heapPush (q : List DijkstraQueueState) (x : DijkstraQueueState) :
    List DijkstraQueueState := x :: q

/-- BinaryHeap::pop: remove and return a greatest element under the Ord impl
(lowest cost, ties by largest index).  Entries comparing equal under DQScmp
are identical records, so which duplicate is removed is immaterial. -/
def popMax : List DijkstraQueueState →
    Option (DijkstraQueueState × List DijkstraQueueState)
  | [] => none
  | x :: xs =>
    match popMax xs with
    | none => some (x, [])
    | some (m, rest) =>
      if DQScmp x m = Ordering.lt then some (m, x :: rest) else some (x, xs)

/-- Modelled from the spec: the Scratch Store (RegionCache) hands back the
configured default the first time a slot is touched within a query; a fresh
instance is created per dijkstra/flood call, so a total map with a default
is a faithful model. -/
def RegionCache (α : Type) : Type := Nat → α

/-- RegionCache::new. -/
def RegionCache.new {α : Type} (default : α) : RegionCache α := fun _ => default

/-- A write through get_mut. -/
def setCache {α : Type} (c : RegionCache α) (i : Nat) (v : α) : RegionCache α :=
  fun j => if j = i then v else c j

/-- The initial scratch entry: cost u32::MAX, prev u32::MAX, edge None. -/
def initState : DijkstraCacheState := ⟨U32MAX, U32MAX, none⟩

/-- A route step (enum Step): use of an Edge (carrying its definition
payload) or a plain movement to a Coordinate. -/
inductive Step where
  | Edge : Nat → Step
  | Step : Coordinate → Step
deriving DecidableEq, Repr

/-- Which Rust panic fired: out-of-bounds Vec indexing of `vertices`, or the
`.unwrap()` of `edges.get_vec(&index)` returning None. -/
inductive PanicKind where
  | oobVertex
  | missingEdges
deriving DecidableEq, Repr

/-- Outcome of a dijkstra call: a route, None (both the group fast-reject
and frontier exhaustion), a panic, or artificial fuel exhaustion. -/
inductive DijkstraOutcome where
  | success : List Step → DijkstraOutcome
  | noRoute
  | panicked : PanicKind → DijkstraOutcome
  | outOfFuel
deriving DecidableEq, Repr

/-- Everything observable about a dijkstra call: the outcome, the final
scratch store, the extraction trace — one (popped cost, popped index, cost
recorded in the scratch store for that index at extraction time) triple per
loop iteration — and the debug-printed teleports of the seeding step. -/
structure DijkstraRun where
  result : DijkstraOutcome
  cacheF : RegionCache DijkstraCacheState
  trace : List (Nat × Nat × Nat)
  prints : List Edge

/-- Grid relaxation (lines 79-90): for each direction permitted by the
cell's bitmask, relax the wrapped neighbor index with weight 1 on strict
improvement, recording predecessor and clearing the edge field. -/
def relaxDirs (W : Nat) (v : Vertex) (cost index : Nat)
    (s : List DijkstraQueueState × RegionCache DijkstraCacheState) :
    List DijkstraQueueState × RegionCache DijkstraCacheState :=
  DIRECTIONS.foldl
    (fun s d =>
      if Nat.land v.flags d.1 ≠ 0 then
        if wadd cost 1 < (s.2 (adjOf W index d.2.1 d.2.2)).cost then
          (heapPush s.1 ⟨wadd cost 1, adjOf W index d.2.1 d.2.2⟩,
           setCache s.2 (adjOf W index d.2.1 d.2.2) ⟨wadd cost 1, index, none⟩)
        else s
      else s)
    s

/-- Extra-edge relaxation (lines 92-102): for each edge whose requirements
are all met, relax its destination with the edge's cost on strict
improvement, recording predecessor and the edge used. -/
def relaxEdges (gs : GameState) (cost index : Nat) (es : List Edge)
    (s : List DijkstraQueueState × RegionCache DijkstraCacheState) :
    List DijkstraQueueState × RegionCache DijkstraCacheState :=
  es.foldl
    (fun s edge =>
      if edge.requirements.all (fun req => req.is_met gs) then
        if wadd cost edge.cost < (s.2 edge.destination.index).cost then
          (heapPush s.1 ⟨wadd cost edge.cost, edge.destination.index⟩,
           setCache s.2 edge.destination.index
             ⟨wadd cost edge.cost, index, some edge⟩)
        else s
      else s)
    s

/-- Route reconstruction (lines 65-75), in push order (end first); the
caller reverses.  Follows prev pointers until the u32::MAX sentinel; the
fuel bounds the chain length, none meaning fuel ran out. -/
def reconstruct (cache : RegionCache DijkstraCacheState) :
    Nat → Nat → Option (List Step)
  | 0, _ => none
  | fuel + 1, index =>
    if index = U32MAX then some []
    else
      (reconstruct cache fuel (cache index).prev).map
        (fun rest =>
          (match (cache index).edge with
           | some edge => Step.Edge edge.definition
           | none => Step.Step (Coordinate.from_index index)) :: rest)

/-- Teleport seeding (lines 51-62): for every teleport whose requirements
are all met and whose cost improves its destination's current best, print
the teleport, update cost and edge-used (the predecessor update is
commented out in the source and is accordingly absent here) and push the
destination. -/
def seedTeleports (gs : GameState) (teleports : List Edge)
    (s : List DijkstraQueueState × RegionCache DijkstraCacheState × List Edge) :
    List DijkstraQueueState × RegionCache DijkstraCacheState × List Edge :=
  teleports.foldl
    (fun s teleport =>
      if teleport.requirements.all (fun req => req.is_met gs) then
        if teleport.cost < (s.2.1 teleport.destination.index).cost then
          (heapPush s.1 ⟨teleport.cost, teleport.destination.index⟩,
           setCache s.2.1 teleport.destination.index
             ⟨teleport.cost, (s.2.1 teleport.destination.index).prev, some teleport⟩,
           s.2.2 ++ [teleport])
        else s
      else s)
    s

/-- The main loop of dijkstra (lines 63-104).  `rfuel` bounds route
reconstruction, `fuel` the number of loop iterations.  Each iteration
appends its (popped cost, popped index, extraction-time recorded cost)
triple to the trace. -/
def dijkstraLoop (W : Nat) (g : NavGrid) (gs : GameState) (end_index : Nat)
    (prints : List Edge) (rfuel : Nat) :
    Nat → List DijkstraQueueState → RegionCache DijkstraCacheState →
    List (Nat × Nat × Nat) → DijkstraRun
  | 0, queue, cache, tr =>
    match popMax queue with
    | none => ⟨DijkstraOutcome.noRoute, cache, tr.reverse, prints⟩
    | some _ => ⟨DijkstraOutcome.outOfFuel, cache, tr.reverse, prints⟩
  | fuel + 1, queue, cache, tr =>
    match popMax queue with
    | none => ⟨DijkstraOutcome.noRoute, cache, tr.reverse, prints⟩
    | some (qs, queue1) =>
      if qs.index = end_index then
        match reconstruct cache rfuel qs.index with
        | none =>
          ⟨DijkstraOutcome.outOfFuel, cache,
           ((qs.cost, qs.index, (cache qs.index).cost) :: tr).reverse, prints⟩
        | some l =>
          ⟨DijkstraOutcome.success l.reverse, cache,
           ((qs.cost, qs.index, (cache qs.index).cost) :: tr).reverse, prints⟩
      else
        if hv : qs.index < g.vertices.length then
          if (g.vertices.get ⟨qs.index, hv⟩).has_extra_edges then
            match g.get_vec qs.index with
            | none =>
              ⟨DijkstraOutcome.panicked PanicKind.missingEdges,
               (relaxDirs W (g.vertices.get ⟨qs.index, hv⟩) qs.cost qs.index
                 (queue1, cache)).2,
               ((qs.cost, qs.index, (cache qs.index).cost) :: tr).reverse, prints⟩
            | some es =>
              dijkstraLoop W g gs end_index prints rfuel fuel
                (relaxEdges gs qs.cost qs.index es
                  (relaxDirs W (g.vertices.get ⟨qs.index, hv⟩) qs.cost qs.index
                    (queue1, cache))).1
                (relaxEdges gs qs.cost qs.index es
                  (relaxDirs W (g.vertices.get ⟨qs.index, hv⟩) qs.cost qs.index
                    (queue1, cache))).2
                ((qs.cost, qs.index, (cache qs.index).cost) :: tr)
          else
            dijkstraLoop W g gs end_index prints rfuel fuel
              (relaxDirs W (g.vertices.get ⟨qs.index, hv⟩) qs.cost qs.index
                (queue1, cache)).1
              (relaxDirs W (g.vertices.get ⟨qs.index, hv⟩) qs.cost qs.index
                (queue1, cache)).2
              ((qs.cost, qs.index, (cache qs.index).cost) :: tr)
        else
          ⟨DijkstraOutcome.panicked PanicKind.oobVertex, cache,
           ((qs.cost, qs.index, (cache qs.index).cost) :: tr).reverse, prints⟩

/-- pub fn dijkstra (lines 41-106): fast group reject, scratch/frontier
setup, teleport seeding, then the main loop.  The vertex reads of line 44
panic when start or end is out of the vertices range. -/
def dijkstra (W : Nat) (g : NavGrid) (start endc : Coordinate)
    (gs : GameState) (fuel : Nat) : DijkstraRun :=
  let start_index := start.index
  let end_index := endc.index
  if hs : start_index < g.vertices.length then
    if he : end_index < g.vertices.length then
      if (g.vertices.get ⟨start_index, hs⟩).get_group ≠
          (g.vertices.get ⟨end_index, he⟩).get_group then
        ⟨DijkstraOutcome.noRoute, RegionCache.new initState, [], []⟩
      else
        let cache0 := setCache (RegionCache.new initState) start_index
          ⟨0, U32MAX, none⟩
        let s := seedTeleports gs g.teleports
          ([⟨0, start_index⟩], cache0, [])
        dijkstraLoop W g gs end_index s.2.2 fuel fuel s.1 s.2.1 []
    else ⟨DijkstraOutcome.panicked PanicKind.oobVertex, RegionCache.new initState, [], []⟩
  else ⟨DijkstraOutcome.panicked PanicKind.oobVertex, RegionCache.new initState, [], []⟩

/-- The variant of the main loop that the spec describes: identical to
`dijkstraLoop` except that the cost used to relax the extracted cell's
neighbors is re-read from the scratch store at extraction time instead of
taken from the popped frontier entry.  Used only to compare against the
source-faithful loop. -/
def dijkstraLoopR (W : Nat) (g : NavGrid) (gs : GameState) (end_index : Nat)
    (prints : List Edge) (rfuel : Nat) :
    Nat → List DijkstraQueueState → RegionCache DijkstraCacheState →
    List (Nat × Nat × Nat) → DijkstraRun
  | 0, queue, cache, tr =>
    match popMax queue with
    | none => ⟨DijkstraOutcome.noRoute, cache, tr.reverse, prints⟩
    | some _ => ⟨DijkstraOutcome.outOfFuel, cache, tr.reverse, prints⟩
  | fuel + 1, queue, cache, tr =>
    match popMax queue with
    | none => ⟨DijkstraOutcome.noRoute, cache, tr.reverse, prints⟩
    | some (qs, queue1) =>
      if qs.index = end_index then
        match reconstruct cache rfuel qs.index with
        | none =>
          ⟨DijkstraOutcome.outOfFuel, cache,
           ((qs.cost, qs.index, (cache qs.index).cost) :: tr).reverse, prints⟩
        | some l =>
          ⟨DijkstraOutcome.success l.reverse, cache,
           ((qs.cost, qs.index, (cache qs.index).cost) :: tr).reverse, prints⟩
      else
        if hv : qs.index < g.vertices.length then
          if (g.vertices.get ⟨qs.index, hv⟩).has_extra_edges then
            match g.get_vec qs.index with
            | none =>
              ⟨DijkstraOutcome.panicked PanicKind.missingEdges,
               (relaxDirs W (g.vertices.get ⟨qs.index, hv⟩) (cache qs.index).cost
                 qs.index (queue1, cache)).2,
               ((qs.cost, qs.index, (cache qs.index).cost) :: tr).reverse, prints⟩
            | some es =>
              dijkstraLoopR W g gs end_index prints rfuel fuel
                (relaxEdges gs (cache qs.index).cost qs.index es
                  (relaxDirs W (g.vertices.get ⟨qs.index, hv⟩) (cache qs.index).cost
                    qs.index (queue1, cache))).1
                (relaxEdges gs (cache qs.index).cost qs.index es
                  (relaxDirs W (g.vertices.get ⟨qs.index, hv⟩) (cache qs.index).cost
                    qs.index (queue1, cache))).2
                ((qs.cost, qs.index, (cache qs.index).cost) :: tr)
          else
            dijkstraLoopR W g gs end_index prints rfuel fuel
              (relaxDirs W (g.vertices.get ⟨qs.index, hv⟩) (cache qs.index).cost
                qs.index (queue1, cache)).1
              (relaxDirs W (g.vertices.get ⟨qs.index, hv⟩) (cache qs.index).cost
                qs.index (queue1, cache)).2
              ((qs.cost, qs.index, (cache qs.index).cost) :: tr)
        else
          ⟨DijkstraOutcome.panicked PanicKind.oobVertex, cache,
           ((qs.cost, qs.index, (cache qs.index).cost) :: tr).reverse, prints⟩

/-- dijkstra built on the re-read loop variant, for comparison with the
source-faithful `dijkstra`. -/
def dijkstraReread (W : Nat) (g : NavGrid) (start endc : Coordinate)
    (gs : GameState) (fuel : Nat) : DijkstraRun :=
  let start_index := start.index
  let end_index := endc.index
  if hs : start_index < g.vertices.length then
    if he : end_index < g.vertices.length then
      if (g.vertices.get ⟨start_index, hs⟩).get_group ≠
          (g.vertices.get ⟨end_index, he⟩).get_group then
        ⟨DijkstraOutcome.noRoute, RegionCache.new initState, [], []⟩
      else
        let cache0 := setCache (RegionCache.new initState) start_index
          ⟨0, U32MAX, none⟩
        let s := seedTeleports gs g.teleports
          ([⟨0, start_index⟩], cache0, [])
        dijkstraLoopR W g gs end_index s.2.2 fuel fuel s.1 s.2.1 []
    else ⟨DijkstraOutcome.panicked PanicKind.oobVertex, RegionCache.new initState, [], []⟩
  else ⟨DijkstraOutcome.panicked PanicKind.oobVertex, RegionCache.new initState, [], []⟩

/-- The precondition of the get_vec unwrap, as an executable check: every
cell whose extra-edges flag is set has an entry in the edge multimap. -/
def edgesWFb (g : NavGrid) : Bool :=
  (List.range g.vertices.length).all
    (fun i => !(g.vertices.getD i ⟨0, 0, false⟩).has_extra_edges ||
      (g.get_vec i).isSome)

/-- Outcome of a flood call. -/
inductive FloodOutcome where
  | ok
  | panicked : PanicKind → FloodOutcome
  | outOfFuel
deriving DecidableEq, Repr

/-- Everything observable about a flood call: the callback invocation
sequence, the visited marks, the callback's final state and the outcome. -/
structure FloodRun (σ : Type) where
  calls : List Nat
  visited : RegionCache Bool
  cbState : σ
  outcome : FloodOutcome

/-- Mark a cell visited. -/
def setVisited (c : RegionCache Bool) (i : Nat) : RegionCache Bool :=
  setCache c i true

/-- The enqueue discipline of flood (lines 121-125 and 130-134): push to
the back and mark visited, only when not yet visited. -/
def enqStep (a : Nat) (s : List Nat × RegionCache Bool) :
    List Nat × RegionCache Bool :=
  if s.2 a = false then (s.1 ++ [a], setVisited s.2 a) else s

/-- Grid-neighbor enqueueing of flood (lines 118-127). -/
def floodDirs (W : Nat) (v : Vertex) (index : Nat)
    (s : List Nat × RegionCache Bool) : List Nat × RegionCache Bool :=
  DIRECTIONS.foldl
    (fun s d =>
      if Nat.land v.flags d.1 ≠ 0 then enqStep (adjOf W index d.2.1 d.2.2) s
      else s)
    s

/-- Extra-edge enqueueing of flood (lines 128-136); requirements are
ignored entirely. -/
def floodEdges (es : List Edge) (s : List Nat × RegionCache Bool) :
    List Nat × RegionCache Bool :=
  es.foldl (fun s edge => enqStep edge.destination.index s) s

/-- The main loop of flood (lines 113-137).  The vertex is read before the
callback is invoked, so an out-of-bounds pop panics without a callback
invocation; a false callback return suppresses expansion but the cell stays
visited. -/
def floodLoop {σ : Type} (W : Nat) (g : NavGrid) (cb : σ → Nat → Bool × σ) :
    Nat → List Nat → RegionCache Bool → σ → List Nat → FloodRun σ
  | 0, queue, visited, cs, calls =>
    match queue with
    | [] => ⟨calls.reverse, visited, cs, FloodOutcome.ok⟩
    | _ :: _ => ⟨calls.reverse, visited, cs, FloodOutcome.outOfFuel⟩
  | fuel + 1, queue, visited, cs, calls =>
    match queue with
    | [] => ⟨calls.reverse, visited, cs, FloodOutcome.ok⟩
    | index :: queue1 =>
      if hv : index < g.vertices.length then
        if (cb cs index).1 = false then
          floodLoop W g cb fuel queue1 visited (cb cs index).2 (index :: calls)
        else
          if (g.vertices.get ⟨index, hv⟩).has_extra_edges then
            match g.get_vec index with
            | none =>
              ⟨(index :: calls).reverse,
               (floodDirs W (g.vertices.get ⟨index, hv⟩) index (queue1, visited)).2,
               (cb cs index).2, FloodOutcome.panicked PanicKind.missingEdges⟩
            | some es =>
              floodLoop W g cb fuel
                (floodEdges es
                  (floodDirs W (g.vertices.get ⟨index, hv⟩) index (queue1, visited))).1
                (floodEdges es
                  (floodDirs W (g.vertices.get ⟨index, hv⟩) index (queue1, visited))).2
                (cb cs index).2 (index :: calls)
          else
            floodLoop W g cb fuel
              (floodDirs W (g.vertices.get ⟨index, hv⟩) index (queue1, visited)).1
              (floodDirs W (g.vertices.get ⟨index, hv⟩) index (queue1, visited)).2
              (cb cs index).2 (index :: calls)
      else ⟨calls.reverse, visited, cs, FloodOutcome.panicked PanicKind.oobVertex⟩

/-- pub fn flood (lines 108-138): seed the queue with start, mark it
visited, run the loop.  The callback is FnMut, modelled by explicit state
threading. -/
def flood {σ : Type} (W : Nat) (g : NavGrid) (start : Coordinate)
    (cb : σ → Nat → Bool × σ) (cs : σ) (fuel : Nat) : FloodRun σ :=
  floodLoop W g cb fuel [start.index]
    (setVisited (RegionCache.new false) start.index) cs []

/-- The predecessor chain of the scratch store, read backward from a cell
until the u32::MAX sentinel; none when the fuel runs out. -/
def chainIndices (cache : RegionCache DijkstraCacheState) :
    Nat → Nat → Option (List Nat)
  | 0, _ => none
  | fuel + 1, index =>
    if index = U32MAX then some []
    else (chainIndices cache fuel (cache index).prev).map (fun l => index :: l)

/-- A game state satisfying no requirement; the concrete grids below only
use requirement-free edges, so it is never consulted. -/
def gsF : GameState := fun _ => false

/-- The always-true flood callback, stateless. -/
def cbT : Unit → Nat → Bool × Unit := fun s _ => (true, s)

/-- The always-false flood callback, stateless. -/
def cbF : Unit → Nat → Bool × Unit := fun s _ => (false, s)

/-- Passability mask of cell i on the border-clipped open 4x4 grid: exactly
the axis directions that stay inside the grid (bit 1 = dx -1, bit 2 = dx 1,
bit 4 = dy -1, bit 8 = dy 1 under the modelled DIRECTIONS). -/
def axisFlags (i : Nat) : Nat :=
  (if 0 < i % 4 then 1 else 0) + (if i % 4 < 3 then 2 else 0) +
  (if 0 < i / 4 then 4 else 0) + (if i / 4 < 3 then 8 else 0)

/-- The 4-wide 4-tall grid open in the interior and clipped at the border:
no cell permits a move leaving the grid; one connectivity group, no extra
edges, no teleports. -/
def gClip4 : NavGrid :=
  ⟨(List.range 16).map (fun i => ⟨axisFlags i, 0, false⟩), [], []⟩

/-- The literal scenario grid of the spec: 4-wide, 4-tall, every cell
permitting all four axis-aligned directions, border cells included. -/
def gOpen4 : NavGrid := ⟨List.replicate 16 ⟨15, 0, false⟩, [], []⟩

/-- A requirement-free teleport of cost 5 to cell 1. -/
def tpEdge : Edge := ⟨⟨1⟩, 5, [], 77⟩

/-- The clipped 4x4 grid plus the cost-5 teleport to cell 1. -/
def tpG : NavGrid := ⟨gClip4.vertices, [], [tpEdge]⟩

/-- A requirement-free teleport of cost 1 to cell 5. -/
def tp5Edge : Edge := ⟨⟨5⟩, 1, [], 99⟩

/-- The clipped 4x4 grid plus the cost-1 teleport to cell 5. -/
def tpG5 : NavGrid := ⟨gClip4.vertices, [], [tp5Edge]⟩

/-- A two-cell grid whose cells carry different connectivity groups. -/
def gGroups : NavGrid := ⟨[⟨0, 0, false⟩, ⟨0, 1, false⟩], [], []⟩

/-- A grid whose cell 0 has the extra-edges flag set but no entry in the
edge multimap: the unwrap of get_vec panics there. -/
def gBadEdges : NavGrid := ⟨[⟨0, 0, true⟩, ⟨0, 0, false⟩], [], []⟩

/-- A well-formed variant: cell 0's extra-edges flag is backed by an entry
in the edge multimap. -/
def gGoodEdges : NavGrid :=
  ⟨[⟨0, 0, true⟩, ⟨0, 0, false⟩], [(0, [⟨⟨1⟩, 1, [], 5⟩])], []⟩

/-- popMax never returns none on a nonempty list. -/
theorem popMax_cons_isSome (x : DijkstraQueueState) (xs : List DijkstraQueueState) :
    (popMax (x :: xs)).isSome = true := by
  cases h : popMax xs with
  | none => simp [popMax, h]
  | some p => simp [popMax, h]; split <;> simp

/-- Unfolding of the u32 comparison. -/
theorem natCompare_lt_iff (a b : Nat) : natCompare a b = Ordering.lt ↔ a < b := by
  unfold natCompare
  split_ifs <;> simp_all

/-- The Ord impl orders a strictly below b exactly when b has strictly
lower cost, or equal cost and strictly larger index. -/
theorem DQScmp_lt_iff (a b : DijkstraQueueState) :
    DQScmp a b = Ordering.lt ↔
      b.cost < a.cost ∨ (b.cost = a.cost ∧ a.index < b.index) := by
  unfold DQScmp
  rcases h : natCompare b.cost a.cost with _ | _ | _ <;>
    unfold natCompare at h <;> split_ifs at h <;> simp_all [natCompare_lt_iff] <;> omega

/-- C4 (amended): the extracted frontier entry always has the lowest
recorded cost, and among equal-lowest-cost entries it is the one with the
LARGEST cell index — the tie-break of the Ord impl compares cell indices,
not insertion sequence numbers. -/
theorem popMax_min_cost_max_index :
    ∀ (q : List DijkstraQueueState) (x : DijkstraQueueState)
      (rest : List DijkstraQueueState),
      popMax q = some (x, rest) →
      x ∈ q ∧ (∀ y ∈ q, x.cost ≤ y.cost) ∧
        (∀ y ∈ q, y.cost = x.cost → y.index ≤ x.index) := by
  intro q
  induction q with
  | nil => intro x rest h; simp [popMax] at h
  | cons a as ih =>
    intro x rest h
    rcases hm : popMax as with _ | ⟨m, mrest⟩
    · have has : as = [] := by
        cases as with
        | nil => rfl
        | cons b bs => have := popMax_cons_isSome b bs; rw [hm] at this; simp at this
      subst has
      simp [popMax] at h
      obtain ⟨hx, _⟩ := h
      subst hx
      refine ⟨by simp, ?_, ?_⟩ <;> intro y hy <;> simp at hy <;> subst hy <;> simp
    · obtain ⟨hmem, hmin, htie⟩ := ih m mrest hm
      simp only [popMax, hm] at h
      by_cases hlt : DQScmp a m = Ordering.lt
      · rw [if_pos hlt] at h
        injection h with h1
        injection h1 with h2 h3
        subst h2
        rw [DQScmp_lt_iff] at hlt
        refine ⟨List.mem_cons_of_mem a hmem, ?_, ?_⟩
        · intro y hy
          rcases List.mem_cons.mp hy with h1 | h1
          · subst h1; omega
          · exact hmin y h1
        · intro y hy hc
          rcases List.mem_cons.mp hy with h1 | h1
          · subst h1; omega
          · exact htie y h1 hc
      · rw [if_neg hlt] at h
        injection h with h1
        injection h1 with h2 h3
        subst h2
        rw [DQScmp_lt_iff] at hlt
        push_neg at hlt
        refine ⟨List.mem_cons_self a as, ?_, ?_⟩
        · intro y hy
          rcases List.mem_cons.mp hy with h1 | h1
          · subst h1; omega
          · have := hmin y h1
            omega
        · intro y hy hc
          rcases List.mem_cons.mp hy with h1 | h1
          · subst h1; omega
          · have h2 := hmin y h1
            have h3 := htie y h1
            omega

/-- C4 witness: popMax_min_cost_max_index evaluated on a concrete queue. -/
theorem popMax_min_cost_max_index_witness :
    popMax [⟨1, 9⟩, ⟨1, 5⟩] = some (⟨1, 9⟩, [⟨1, 5⟩]) ∧
      (⟨1, 9⟩ : DijkstraQueueState) ∈ [⟨1, 9⟩, ⟨1, 5⟩] ∧
      (∀ y ∈ [(⟨1, 9⟩ : DijkstraQueueState), ⟨1, 5⟩], (1 : Nat) ≤ y.cost) ∧
      (∀ y ∈ [(⟨1, 9⟩ : DijkstraQueueState), ⟨1, 5⟩], y.cost = 1 → y.index ≤ 9) :=
  ⟨by decide, popMax_min_cost_max_index [⟨1, 9⟩, ⟨1, 5⟩] ⟨1, 9⟩ [⟨1, 5⟩] (by decide)⟩

/-- C4 counterexample: pushing the entry (cost 1, index 5) first and then
(cost 1, index 9), extraction returns the SECOND-inserted entry (the one
with the larger cell index), so equal-cost entries are not extracted in
insertion order; the same inversion occurs in a real search on the clipped
4x4 grid, where iteration 1 inserts the neighbors of cell 0 in the order
1, 4 but the following extractions pop 4 before 1. -/
theorem popMax_insertion_order_cex :
    heapPush (heapPush [] ⟨1, 5⟩) ⟨1, 9⟩ = [⟨1, 9⟩, ⟨1, 5⟩] ∧
      popMax (heapPush (heapPush [] ⟨1, 5⟩) ⟨1, 9⟩) = some (⟨1, 9⟩, [⟨1, 5⟩]) ∧
      ((dijkstra 4 gClip4 ⟨0⟩ ⟨15⟩ gsF 64).trace.map
          (fun t => t.2.1)).take 3 = [0, 4, 1] := by
  refine ⟨by decide, by decide, by decide⟩

/-- C1 counterexample: on the literal scenario grid — 4-wide, 4-tall, every
cell permitting all four axis-aligned directions — search from index 0 to
index 0 returns a route of ONE Step (the start cell's own movement Step),
not zero Steps; and search from index 0 to index 15 panics on an
out-of-bounds vertex read (border cells walk off the grid through wrapping
index arithmetic) instead of returning a 6-Step route. -/
theorem dijkstra_open4_literal_cex :
    (dijkstra 4 gOpen4 ⟨0⟩ ⟨0⟩ gsF 8).result =
        DijkstraOutcome.success [Step.Step ⟨0⟩] ∧
      (dijkstra 4 gOpen4 ⟨0⟩ ⟨15⟩ gsF 8).result =
        DijkstraOutcome.panicked PanicKind.oobVertex := by
  refine ⟨by decide, by decide⟩

/-- C1 (amended): on the 4-wide 4-tall grid whose cells permit exactly the
axis directions that stay inside the grid, search from index 0 to index 15
returns a route of exactly SEVEN plain-movement Steps (start and end cells
both included, 6 moves) and records cost 6 at the end cell; search from
index 0 to index 0 returns the single-Step route of the start cell with
recorded cost 0. -/
theorem dijkstra_clip4_routes :
    (dijkstra 4 gClip4 ⟨0⟩ ⟨15⟩ gsF 64).result =
        DijkstraOutcome.success
          [Step.Step ⟨0⟩, Step.Step ⟨4⟩, Step.Step ⟨8⟩, Step.Step ⟨12⟩,
           Step.Step ⟨13⟩, Step.Step ⟨14⟩, Step.Step ⟨15⟩] ∧
      ((dijkstra 4 gClip4 ⟨0⟩ ⟨15⟩ gsF 64).cacheF 15).cost = 6 ∧
      (dijkstra 4 gClip4 ⟨0⟩ ⟨0⟩ gsF 8).result =
        DijkstraOutcome.success [Step.Step ⟨0⟩] ∧
      ((dijkstra 4 gClip4 ⟨0⟩ ⟨0⟩ gsF 8).cacheF 0).cost = 0 := by
  refine ⟨by decide, by decide, by decide, by decide⟩

/-- C3 counterexample: in the run on the clipped 4x4 grid with a cost-5
teleport to cell 1, the main loop reaches an iteration that extracts the
stale frontier entry (cost 5, cell 1) while the scratch store's recorded
best for cell 1 is 1: the trace triple (popped cost, index, extraction-time
recorded cost) = (5, 1, 1) shows the relaxation cost of that iteration is
the insertion-time value 5, not the re-read recorded best 1. -/
theorem dijkstra_stale_pop_cex :
    (5, 1, 1) ∈ (dijkstra 4 tpG ⟨0⟩ ⟨15⟩ gsF 64).trace := by
  decide

/-- C3 (amended): the relaxation cost is the cost stored in the popped
frontier entry at insertion time — on this run some iteration's popped
cost differs from the extraction-time recorded best — yet the computed
route agrees with the variant loop that re-reads the recorded best at
extraction time, so the stale duplicate entries do not change the route. -/
theorem dijkstra_insertion_cost_relax :
    ((dijkstra 4 tpG ⟨0⟩ ⟨15⟩ gsF 64).trace.any (fun t => t.1 != t.2.2)) = true ∧
      (dijkstra 4 tpG ⟨0⟩ ⟨15⟩ gsF 64).result =
        (dijkstraReread 4 tpG ⟨0⟩ ⟨15⟩ gsF 64).result := by
  refine ⟨by decide, by decide⟩

/-- C5 counterexample: on the clipped 4x4 grid with a cost-1 teleport to
cell 5, the search from cell 0 to cell 5 succeeds with a route beginning
with (indeed consisting of) the teleport Step, but the predecessor chain
followed backward from the end cell is [5]: it terminates at the teleport's
destination, not at the start cell 0, because teleport seeding sets the
edge but never the predecessor. -/
theorem dijkstra_teleport_chain_cex :
    (dijkstra 4 tpG5 ⟨0⟩ ⟨5⟩ gsF 32).result =
        DijkstraOutcome.success [Step.Edge 99] ∧
      chainIndices (dijkstra 4 tpG5 ⟨0⟩ ⟨5⟩ gsF 32).cacheF 32 5 = some [5] ∧
      (5 : Nat) ≠ 0 := by
  refine ⟨by decide, by decide, by decide⟩

/-- C2: whenever the start and end cells exist and carry different
connectivity-group ids, dijkstra returns the absent result with an empty
extraction trace and no prints — for every fuel, including zero, so no
frontier exploration happens. -/
theorem dijkstra_group_reject :
    ∀ (W : Nat) (g : NavGrid) (s e : Coordinate) (gs : GameState) (fuel : Nat)
      (hs : s.index < g.vertices.length) (he : e.index < g.vertices.length),
      (g.vertices.get ⟨s.index, hs⟩).get_group ≠
          (g.vertices.get ⟨e.index, he⟩).get_group →
      dijkstra W g s e gs fuel =
        ⟨DijkstraOutcome.noRoute, RegionCache.new initState, [], []⟩ := by
  intro W g s e gs fuel hs he hne
  unfold dijkstra
  rw [dif_pos hs, dif_pos he, if_pos hne]

/-- C2 witness: dijkstra_group_reject on a concrete two-cell grid whose
cells are in groups 0 and 1, with zero fuel. -/
theorem dijkstra_group_reject_witness :
    (0 : Nat) < gGroups.vertices.length ∧ (1 : Nat) < gGroups.vertices.length ∧
      dijkstra 7 gGroups ⟨0⟩ ⟨1⟩ gsF 0 =
        ⟨DijkstraOutcome.noRoute, RegionCache.new initState, [], []⟩ :=
  ⟨by decide, by decide,
    dijkstra_group_reject 7 gGroups ⟨0⟩ ⟨1⟩ gsF 0 (by decide) (by decide) (by decide)⟩

/-- floodLoop on an empty queue terminates immediately whatever the fuel. -/
theorem floodLoop_nil (σ : Type) (W : Nat) (g : NavGrid)
    (cb : σ → Nat → Bool × σ) (fuel : Nat) (vis : RegionCache Bool) (cs : σ)
    (calls : List Nat) :
    floodLoop W g cb fuel [] vis cs calls =
      ⟨calls.reverse, vis, cs, FloodOutcome.ok⟩ := by
  cases fuel <;> rfl

/-- C7: flood with a callback that always returns false invokes the
callback exactly once, on the start cell's index, and neither enqueues nor
marks visited any other cell — the run's whole observable output is the
single-element call list and the visited map marking only start. -/
theorem flood_false_callback :
    ∀ (σ : Type) (W : Nat) (g : NavGrid) (start : Coordinate) (cs : σ)
      (fuel : Nat), start.index < g.vertices.length → 1 ≤ fuel →
      flood W g start (fun s _ => (false, s)) cs fuel =
        ⟨[start.index], setVisited (RegionCache.new false) start.index, cs,
          FloodOutcome.ok⟩ := by
  intro σ W g start cs fuel hs hf
  cases fuel with
  | zero => omega
  | succ n =>
    simp [flood, floodLoop, dif_pos hs, floodLoop_nil]

/-- C7 witness: flood_false_callback on the clipped 4x4 grid from cell 0
with fuel 1. -/
theorem flood_false_callback_witness :
    (0 : Nat) < gClip4.vertices.length ∧ (1 : Nat) ≤ 1 ∧
      flood 4 gClip4 ⟨0⟩ (fun (s : Unit) _ => (false, s)) () 1 =
        ⟨[0], setVisited (RegionCache.new false) 0, (), FloodOutcome.ok⟩ :=
  ⟨by decide, by decide,
    flood_false_callback Unit 4 gClip4 ⟨0⟩ () 1 (by decide) (by decide)⟩

/-- C10: for the dx/dy values of compass directions, the neighbor index is
exactly index + WIDTH*dy + dx computed modulo 2^32 with two's-complement
negatives, and no bounds check is applied to the result: on the fully open
4x4 grid, flood marks visited the wrapped north neighbor 2^32 - 4 of cell 0
— far beyond the 16-cell extent — and then panics on the out-of-bounds
vertex read when a wrapped index is popped. -/
theorem adj_index_wrapping :
    (∀ (W idx : Nat) (dx dy : Int),
        dx ∈ ([-1, 0, 1] : List Int) → dy ∈ ([-1, 0, 1] : List Int) →
        adjOf W idx dx dy =
          (((idx : Int) + (W : Int) * dy + dx) % ((U32MOD : Nat) : Int)).toNat) ∧
      (flood 4 gOpen4 ⟨0⟩ cbT () 2).visited 4294967292 = true ∧
      (16 : Nat) ≤ 4294967292 ∧
      (flood 4 gOpen4 ⟨0⟩ cbT () 2).outcome =
        FloodOutcome.panicked PanicKind.oobVertex := by
  refine ⟨?_, by decide, by decide, by decide⟩
  intro W idx dx dy _ _
  have hmod : ((U32MOD : Nat) : Int) = (4294967296 : Int) := by norm_num [U32MOD]
  have hmodN : U32MOD = 4294967296 := rfl
  have key : ∀ z : Int, ((u32ofInt z : Nat) : Int) = z % (4294967296 : Int) := by
    intro z
    unfold u32ofInt
    rw [Int.toNat_of_nonneg (Int.emod_nonneg z (by norm_num [U32MOD]))]
    rw [hmod]
  have main : ((adjOf W idx dx dy : Nat) : Int) =
      ((idx : Int) + (W : Int) * dy + dx) % (4294967296 : Int) := by
    unfold adjOf wadd wmul
    rw [hmodN]
    push_cast [key]
    have h1 : ((W : Int) * (dy % (4294967296 : Int))) % (4294967296 : Int) =
        ((W : Int) * dy) % (4294967296 : Int) := by
      conv_lhs => rw [Int.mul_emod]
      conv_rhs => rw [Int.mul_emod]
      rw [Int.emod_emod_of_dvd dy (dvd_refl _)]
    rw [h1]
    omega
  rw [hmod]
  omega

/-- C10 witness: adj_index_wrapping at W = 4, index 0, dx 0, dy -1 — the
wrapped north neighbor of cell 0. -/
theorem adj_index_wrapping_witness :
    ((0 : Int) ∈ ([-1, 0, 1] : List Int)) ∧
      ((-1 : Int) ∈ ([-1, 0, 1] : List Int)) ∧
      adjOf 4 0 0 (-1) =
        ((((0 : Nat) : Int) + ((4 : Nat) : Int) * (-1) + 0) %
            ((U32MOD : Nat) : Int)).toNat :=
  ⟨by decide, by decide, adj_index_wrapping.1 4 0 0 (-1) (by decide) (by decide)⟩

/-- Invariant of the flood loop: cells already passed to the callback plus
cells still queued are pairwise distinct, and every one of them is marked
visited. -/
def FloodInv (calls : List Nat) (s : List Nat × RegionCache Bool) : Prop :=
  (calls ++ s.1).Nodup ∧ ∀ i ∈ calls ++ s.1, s.2 i = true

/-- The conditional enqueue preserves the invariant: a cell is enqueued
only when unvisited, and it is marked at that very moment. -/
theorem enqStep_inv (calls : List Nat) (a : Nat)
    (s : List Nat × RegionCache Bool) (h : FloodInv calls s) :
    FloodInv calls (enqStep a s) := by
  obtain ⟨h1, h2⟩ := h
  unfold enqStep
  split_ifs with hvn
  · have ha : a ∉ calls ++ s.1 := by
      intro hm
      have := h2 a hm
      rw [hvn] at this
      exact Bool.false_ne_true this
    constructor
    · show (calls ++ (s.1 ++ [a])).Nodup
      rw [← List.append_assoc, List.nodup_append]
      refine ⟨h1, List.nodup_singleton a, ?_⟩
      intro x hx
      simp only [List.mem_singleton]
      intro heq
      subst heq
      exact ha hx
    · intro i hi
      show setVisited s.2 a i = true
      unfold setVisited setCache
      by_cases hia : i = a
      · simp [hia]
      · simp only [hia, if_false]
        apply h2
        rw [← List.append_assoc] at hi
        rcases List.mem_append.mp hi with hl | hr
        · exact hl
        · simp only [List.mem_singleton] at hr
          exact absurd hr hia
  · exact ⟨h1, h2⟩

/-- foldl preserves any invariant its step preserves. -/
theorem foldl_preserves {α β : Type} (P : β → Prop) (f : β → α → β)
    (hf : ∀ b a, P b → P (f b a)) :
    ∀ (l : List α) (b : β), P b → P (l.foldl f b) := by
  intro l
  induction l with
  | nil => intro b hb; exact hb
  | cons x xs ih => intro b hb; exact ih (f b x) (hf b x hb)

/-- Grid-neighbor enqueueing preserves the invariant. -/
theorem floodDirs_inv (calls : List Nat) (W : Nat) (v : Vertex) (index : Nat)
    (s : List Nat × RegionCache Bool) (h : FloodInv calls s) :
    FloodInv calls (floodDirs W v index s) := by
  unfold floodDirs
  refine foldl_preserves (FloodInv calls) _ ?_ DIRECTIONS s h
  intro b d hb
  dsimp only
  split_ifs with _
  · exact enqStep_inv calls _ b hb
  · exact hb

/-- Extra-edge enqueueing preserves the invariant. -/
theorem floodEdges_inv (calls : List Nat) (es : List Edge)
    (s : List Nat × RegionCache Bool) (h : FloodInv calls s) :
    FloodInv calls (floodEdges es s) := by
  unfold floodEdges
  refine foldl_preserves (FloodInv calls) _ ?_ es s h
  intro b e hb
  exact enqStep_inv calls _ b hb

/-- Dequeueing the front cell moves it from the queue to the call list
without disturbing the invariant. -/
theorem FloodInv_pop (calls : List Nat) (i : Nat) (q : List Nat)
    (vis : RegionCache Bool) (h : FloodInv calls (i :: q, vis)) :
    FloodInv (i :: calls) (q, vis) := by
  obtain ⟨h1, h2⟩ := h
  have hperm : (calls ++ i :: q).Perm ((i :: calls) ++ q) :=
    List.perm_middle
  exact ⟨hperm.nodup h1, fun j hj => h2 j (hperm.symm.subset hj)⟩

/-- The flood loop emits a duplicate-free call list from any state
satisfying the invariant. -/
theorem floodLoop_nodup (σ : Type) (W : Nat) (g : NavGrid)
    (cb : σ → Nat → Bool × σ) :
    ∀ (fuel : Nat) (queue : List Nat) (vis : RegionCache Bool) (cs : σ)
      (calls : List Nat), FloodInv calls (queue, vis) →
      ((floodLoop W g cb fuel queue vis cs calls).calls).Nodup := by
  intro fuel
  induction fuel with
  | zero =>
    intro queue vis cs calls h
    cases queue with
    | nil =>
      simp only [floodLoop, List.nodup_reverse]
      exact h.1.of_append_left
    | cons i q1 =>
      simp only [floodLoop, List.nodup_reverse]
      exact h.1.of_append_left
  | succ n ih =>
    intro queue vis cs calls h
    cases queue with
    | nil =>
      simp only [floodLoop, List.nodup_reverse]
      exact h.1.of_append_left
    | cons i q1 =>
      have h2 : FloodInv (i :: calls) (q1, vis) := FloodInv_pop calls i q1 vis h
      simp only [floodLoop]
      by_cases hv : i < g.vertices.length
      · rw [dif_pos hv]
        by_cases hc : (cb cs i).1 = false
        · rw [if_pos hc]
          exact ih q1 vis (cb cs i).2 (i :: calls) h2
        · rw [if_neg hc]
          have h3 := floodDirs_inv (i :: calls) W (g.vertices.get ⟨i, hv⟩) i (q1, vis) h2
          by_cases hx : (g.vertices.get ⟨i, hv⟩).has_extra_edges = true
          · rw [if_pos hx]
            cases hgv : g.get_vec i with
            | none =>
              simp only [List.nodup_reverse]
              exact h2.1.of_append_left
            | some es =>
              have h4 := floodEdges_inv (i :: calls) es _ h3
              exact ih _ _ _ _ h4
          · rw [if_neg hx]
            exact ih _ _ _ _ h3
      · rw [dif_neg hv]
        simp only [List.nodup_reverse]
        exact h.1.of_append_left

/-- C6: flood passes each cell index to the callback at most once — the
call list of any run, whatever the grid, start, fuel and (stateful)
callback, has no duplicates — and two runs from the same start with the
always-true callback produce the same visited set, flood being a pure
function of its inputs. -/
theorem flood_calls_nodup_det :
    ∀ (σ : Type) (W : Nat) (g : NavGrid) (start : Coordinate)
      (cb : σ → Nat → Bool × σ) (cs : σ) (fuel : Nat),
      ((flood W g start cb cs fuel).calls).Nodup ∧
        (flood W g start cbT () fuel).visited =
          (flood W g start cbT () fuel).visited := by
  intro σ W g start cb cs fuel
  refine ⟨?_, rfl⟩
  unfold flood
  apply floodLoop_nodup
  constructor
  · simp
  · intro i hi
    simp only [List.nil_append, List.mem_singleton] at hi
    subst hi
    unfold setVisited setCache
    simp

/-- getD agrees with get on in-range indices. -/
theorem listGetD_eq_get {α : Type} :
    ∀ (l : List α) (d : α) (i : Nat) (hi : i < l.length),
      l.getD i d = l.get ⟨i, hi⟩ := by
  intro l
  induction l with
  | nil => intro d i hi; simp at hi
  | cons a as ih =>
    intro d i hi
    cases i with
    | zero => rfl
    | succ n => exact ih d n (Nat.lt_of_succ_lt_succ hi)

/-- Pointwise reading of the executable well-formedness check. -/
theorem edgesWFb_spec (g : NavGrid) (h : edgesWFb g = true) (i : Nat)
    (hi : i < g.vertices.length)
    (hx : (g.vertices.get ⟨i, hi⟩).has_extra_edges = true) :
    (g.get_vec i).isSome = true := by
  unfold edgesWFb at h
  rw [List.all_eq_true] at h
  have h2 := h i (List.mem_range.mpr hi)
  rw [listGetD_eq_get g.vertices _ i hi, hx] at h2
  simpa using h2

/-- Under the well-formedness precondition the dijkstra loop never reaches
the unwrap-failure branch, from any state. -/
theorem dijkstraLoop_no_missing (W : Nat) (g : NavGrid) (gs : GameState)
    (e : Nat) (p : List Edge) (r : Nat) (hwf : edgesWFb g = true) :
    ∀ (fuel : Nat) (q : List DijkstraQueueState)
      (c : RegionCache DijkstraCacheState) (tr : List (Nat × Nat × Nat)),
      (dijkstraLoop W g gs e p r fuel q c tr).result ≠
        DijkstraOutcome.panicked PanicKind.missingEdges := by
  intro fuel
  induction fuel with
  | zero =>
    intro q c tr
    cases hq : popMax q with
    | none => simp [dijkstraLoop, hq]
    | some pr => simp [dijkstraLoop, hq]
  | succ n ih =>
    intro q c tr
    cases hq : popMax q with
    | none => simp [dijkstraLoop, hq]
    | some pr =>
      obtain ⟨qs, queue1⟩ := pr
      simp only [dijkstraLoop, hq]
      by_cases he : qs.index = e
      · rw [if_pos he]
        cases reconstruct c r qs.index <;> simp
      · rw [if_neg he]
        by_cases hv : qs.index < g.vertices.length
        · rw [dif_pos hv]
          by_cases hx : (g.vertices.get ⟨qs.index, hv⟩).has_extra_edges = true
          · rw [if_pos hx]
            cases hgv : g.get_vec qs.index with
            | none =>
              exfalso
              have h3 := edgesWFb_spec g hwf qs.index hv hx
              rw [hgv] at h3
              simp at h3
            | some es => exact ih _ _ _
          · rw [if_neg hx]
            exact ih _ _ _
        · rw [dif_neg hv]
          simp

/-- Under the well-formedness precondition the flood loop never reaches the
unwrap-failure branch, from any state. -/
theorem floodLoop_no_missing (σ : Type) (W : Nat) (g : NavGrid)
    (cb : σ → Nat → Bool × σ) (hwf : edgesWFb g = true) :
    ∀ (fuel : Nat) (queue : List Nat) (vis : RegionCache Bool) (cs : σ)
      (calls : List Nat),
      (floodLoop W g cb fuel queue vis cs calls).outcome ≠
        FloodOutcome.panicked PanicKind.missingEdges := by
  intro fuel
  induction fuel with
  | zero =>
    intro queue vis cs calls
    cases queue <;> simp [floodLoop]
  | succ n ih =>
    intro queue vis cs calls
    cases queue with
    | nil => simp [floodLoop]
    | cons i q1 =>
      simp only [floodLoop]
      by_cases hv : i < g.vertices.length
      · rw [dif_pos hv]
        by_cases hc : (cb cs i).1 = false
        · rw [if_pos hc]
          exact ih _ _ _ _
        · rw [if_neg hc]
          by_cases hx : (g.vertices.get ⟨i, hv⟩).has_extra_edges = true
          · rw [if_pos hx]
            cases hgv : g.get_vec i with
            | none =>
              exfalso
              have h3 := edgesWFb_spec g hwf i hv hx
              rw [hgv] at h3
              simp at h3
            | some es => exact ih _ _ _ _
          · rw [if_neg hx]
            exact ih _ _ _ _
      · rw [dif_neg hv]
        simp

/-- C9: when every cell with the extra-edges flag has an entry in the edge
multimap, the unwrap of the get_vec lookup is unreachable in both dijkstra
and flood — neither can end in the missing-edges panic — and without that
precondition both panic there: on a grid whose cell 0 has the flag but no
multimap entry, both functions hit the unwrap failure. -/
theorem unwrap_safe_edges_wf :
    (∀ (W : Nat) (g : NavGrid) (s e : Coordinate) (gs : GameState)
        (fuel : Nat), edgesWFb g = true →
        (dijkstra W g s e gs fuel).result ≠
          DijkstraOutcome.panicked PanicKind.missingEdges) ∧
      (∀ (σ : Type) (W : Nat) (g : NavGrid) (s : Coordinate)
          (cb : σ → Nat → Bool × σ) (cs : σ) (fuel : Nat), edgesWFb g = true →
          (flood W g s cb cs fuel).outcome ≠
            FloodOutcome.panicked PanicKind.missingEdges) ∧
      (dijkstra 4 gBadEdges ⟨0⟩ ⟨1⟩ gsF 8).result =
        DijkstraOutcome.panicked PanicKind.missingEdges ∧
      (flood 4 gBadEdges ⟨0⟩ cbT () 8).outcome =
        FloodOutcome.panicked PanicKind.missingEdges := by
  refine ⟨?_, ?_, by decide, by decide⟩
  · intro W g s e gs fuel hwf
    unfold dijkstra
    by_cases hs : s.index < g.vertices.length
    · rw [dif_pos hs]
      by_cases he2 : e.index < g.vertices.length
      · rw [dif_pos he2]
        by_cases hg : (g.vertices.get ⟨s.index, hs⟩).get_group ≠
            (g.vertices.get ⟨e.index, he2⟩).get_group
        · rw [if_pos hg]
          simp
        · rw [if_neg hg]
          exact dijkstraLoop_no_missing W g gs e.index _ fuel hwf fuel _ _ _
      · rw [dif_neg he2]
        simp
    · rw [dif_neg hs]
      simp
  · intro σ W g s cb cs fuel hwf
    unfold flood
    exact floodLoop_no_missing σ W g cb hwf fuel _ _ _ _

/-- C9 witness: unwrap_safe_edges_wf applied to the well-formed variant
grid, whose extra-edges flag on cell 0 is backed by a multimap entry. -/
theorem unwrap_safe_edges_wf_witness :
    edgesWFb gGoodEdges = true ∧
      (dijkstra 4 gGoodEdges ⟨0⟩ ⟨1⟩ gsF 8).result ≠
        DijkstraOutcome.panicked PanicKind.missingEdges :=
  ⟨by decide, unwrap_safe_edges_wf.1 4 gGoodEdges ⟨0⟩ ⟨1⟩ gsF 8 (by decide)⟩

/-- The main loop passes the seeding-step print list through unchanged: all
printing happens in the seeding step. -/
theorem dijkstraLoop_prints (W : Nat) (g : NavGrid) (gs : GameState)
    (e : Nat) (p : List Edge) (r : Nat) :
    ∀ (fuel : Nat) (q : List DijkstraQueueState)
      (c : RegionCache DijkstraCacheState) (tr : List (Nat × Nat × Nat)),
      (dijkstraLoop W g gs e p r fuel q c tr).prints = p := by
  intro fuel
  induction fuel with
  | zero =>
    intro q c tr
    cases hq : popMax q with
    | none => simp [dijkstraLoop, hq]
    | some pr => simp [dijkstraLoop, hq]
  | succ n ih =>
    intro q c tr
    cases hq : popMax q with
    | none => simp [dijkstraLoop, hq]
    | some pr =>
      obtain ⟨qs, queue1⟩ := pr
      simp only [dijkstraLoop, hq]
      by_cases he : qs.index = e
      · rw [if_pos he]
        cases reconstruct c r qs.index <;> simp
      · rw [if_neg he]
        by_cases hv : qs.index < g.vertices.length
        · rw [dif_pos hv]
          by_cases hx : (g.vertices.get ⟨qs.index, hv⟩).has_extra_edges = true
          · rw [if_pos hx]
            cases g.get_vec qs.index with
            | none => simp
            | some es => exact ih _ _ _
          · rw [if_neg hx]
            exact ih _ _ _
        · rw [dif_neg hv]

/-- Every teleport printed by the seeding step is a teleport of the grid
whose requirements are all met by the game state. -/
theorem seedTeleports_prints_mem (gs : GameState) :
    ∀ (ts : List Edge)
      (s : List DijkstraQueueState × RegionCache DijkstraCacheState × List Edge)
      (t : Edge), t ∈ (seedTeleports gs ts s).2.2 →
      t ∈ s.2.2 ∨
        (t ∈ ts ∧ t.requirements.all (fun req => req.is_met gs) = true) := by
  intro ts
  induction ts with
  | nil => intro s t h; exact Or.inl h
  | cons a as ih =>
    intro s t h
    unfold seedTeleports at h
    rw [List.foldl_cons] at h
    rcases ih _ t h with hin | hnew
    · by_cases hreq : a.requirements.all (fun req => req.is_met gs) = true
      · rw [if_pos hreq] at hin
        by_cases himp : a.cost < (s.2.1 a.destination.index).cost
        · rw [if_pos himp] at hin
          rcases List.mem_append.mp hin with h1 | h1
          · exact Or.inl h1
          · simp only [List.mem_singleton] at h1
            subst h1
            exact Or.inr ⟨List.mem_cons_self _ _, hreq⟩
        · rw [if_neg himp] at hin
          exact Or.inl hin
      · rw [if_neg hreq] at hin
        exact Or.inl hin
    · exact Or.inr ⟨List.mem_cons_of_mem a hnew.1, hnew.2⟩

/-- C8 counterexample: search does perform observable output — on the grid
with a requirement-free cost-1 teleport, the debug print of the seeding
step (line 55 of the source) fires, and the run's print list is exactly
that teleport, not empty. -/
theorem dijkstra_prints_cex :
    (dijkstra 4 tpG5 ⟨0⟩ ⟨5⟩ gsF 32).prints = [tp5Edge] ∧
      [tp5Edge] ≠ ([] : List Edge) := by
  refine ⟨by decide, by decide⟩

/-- C8 (amended): search and flood are deterministic pure functions of
their inputs — equal inputs give equal runs, call sequences included — and
flood performs no output, but search prints one debug line per satisfied
teleport that improves its destination during seeding: every printed edge
is a teleport of the grid with all requirements met. -/
theorem dijkstra_flood_deterministic_prints :
    (∀ (W : Nat) (g : NavGrid) (s e : Coordinate) (gs : GameState)
        (fuel : Nat), dijkstra W g s e gs fuel = dijkstra W g s e gs fuel) ∧
      (∀ (σ : Type) (W : Nat) (g : NavGrid) (s : Coordinate)
          (cb : σ → Nat → Bool × σ) (cs : σ) (fuel : Nat),
          flood W g s cb cs fuel = flood W g s cb cs fuel) ∧
      (∀ (W : Nat) (g : NavGrid) (s e : Coordinate) (gs : GameState)
          (fuel : Nat) (t : Edge), t ∈ (dijkstra W g s e gs fuel).prints →
          t ∈ g.teleports ∧
            t.requirements.all (fun req => req.is_met gs) = true) := by
  refine ⟨fun _ _ _ _ _ _ => rfl, fun _ _ _ _ _ _ _ => rfl, ?_⟩
  intro W g s e gs fuel t ht
  unfold dijkstra at ht
  by_cases hs : s.index < g.vertices.length
  · rw [dif_pos hs] at ht
    by_cases he2 : e.index < g.vertices.length
    · rw [dif_pos he2] at ht
      by_cases hg : (g.vertices.get ⟨s.index, hs⟩).get_group ≠
          (g.vertices.get ⟨e.index, he2⟩).get_group
      · rw [if_pos hg] at ht
        simp at ht
      · rw [if_neg hg] at ht
        rw [dijkstraLoop_prints] at ht
        rcases seedTeleports_prints_mem gs g.teleports _ t ht with h1 | h1
        · simp at h1
        · exact h1
    · rw [dif_neg he2] at ht
      simp at ht
  · rw [dif_neg hs] at ht
    simp at ht

/-- C8 witness: the printed-teleport characterization applied to the run on
the teleport grid. -/
theorem dijkstra_flood_deterministic_prints_witness :
    tp5Edge ∈ (dijkstra 4 tpG5 ⟨0⟩ ⟨5⟩ gsF 32).prints ∧
      tp5Edge ∈ tpG5.teleports ∧
        tp5Edge.requirements.all (fun req => req.is_met gsF) = true :=
  ⟨by decide,
    dijkstra_flood_deterministic_prints.2.2 4 tpG5 ⟨0⟩ ⟨5⟩ gsF 32 tp5Edge (by decide)⟩

/-- Invariant of the scratch store during a search from start_index:
the start cell's entry is frozen at (cost 0, sentinel prev, no edge); any
other cell whose predecessor is the sentinel is either untouched or was
seeded by a teleport of the grid recorded in its edge field; and every
non-sentinel predecessor points to the start cell or to a touched cell. -/
def CacheInv (g : NavGrid) (start_index : Nat)
    (cache : RegionCache DijkstraCacheState) : Prop :=
  cache start_index = ⟨0, U32MAX, none⟩ ∧
    (∀ i, i ≠ start_index → (cache i).prev = U32MAX →
      cache i = initState ∨
        ∃ t, (cache i).edge = some t ∧ t ∈ g.teleports ∧
          t.destination.index = i) ∧
    (∀ i, (cache i).prev ≠ U32MAX →
      ((cache i).prev = start_index ∨ cache ((cache i).prev) ≠ initState))

/-- Every frontier entry indexes the start cell or a touched cell. -/
def QueueInv (start_index : Nat) (cache : RegionCache DijkstraCacheState)
    (queue : List DijkstraQueueState) : Prop :=
  ∀ e ∈ queue, e.index = start_index ∨ cache e.index ≠ initState

/-- The state carried through a relaxation pass: the cache invariant, the
queue invariant, and touchedness of the popped cell qsidx. -/
def RelaxState (g : NavGrid) (start_index qsidx : Nat)
    (s : List DijkstraQueueState × RegionCache DijkstraCacheState) : Prop :=
  CacheInv g start_index s.2 ∧ QueueInv start_index s.2 s.1 ∧
    (qsidx = start_index ∨ s.2 qsidx ≠ initState)

/-- The state carried through teleport seeding. -/
def SeedState (g : NavGrid) (start_index : Nat)
    (s : List DijkstraQueueState × RegionCache DijkstraCacheState × List Edge) :
    Prop :=
  CacheInv g start_index s.2.1 ∧ QueueInv start_index s.2.1 s.1

/-- A record whose predecessor is not the sentinel is not the untouched
default. -/
theorem written_ne_init_prev (n p : Nat) (eo : Option Edge) (hp : p ≠ U32MAX) :
    (⟨n, p, eo⟩ : DijkstraCacheState) ≠ initState := by
  intro h
  have h2 := congrArg DijkstraCacheState.prev h
  simp only [initState] at h2
  exact hp h2

/-- A record carrying an edge is not the untouched default. -/
theorem written_ne_init_edge (n p : Nat) (t : Edge) :
    (⟨n, p, some t⟩ : DijkstraCacheState) ≠ initState := by
  intro h
  have h2 := congrArg DijkstraCacheState.edge h
  simp [initState] at h2

/-- Reading the slot just written. -/
theorem setCache_same {α : Type} (c : RegionCache α) (i : Nat) (v : α) :
    setCache c i v i = v := by
  simp [setCache]

/-- Reading any other slot. -/
theorem setCache_other {α : Type} (c : RegionCache α) (i j : Nat) (v : α)
    (h : j ≠ i) : setCache c i v j = c j := by
  simp [setCache, h]

/-- A relaxation write — strict improvement, predecessor set to the popped
cell — preserves the relaxation-pass invariant, provided the popped cell's
index is not the sentinel. -/
theorem relax_write_inv (g : NavGrid) (start_index qsidx : Nat)
    (hqs : qsidx ≠ U32MAX)
    (s : List DijkstraQueueState × RegionCache DijkstraCacheState)
    (adj newcost : Nat) (eo : Option Edge)
    (hguard : newcost < (s.2 adj).cost)
    (h : RelaxState g start_index qsidx s) :
    RelaxState g start_index qsidx
      (heapPush s.1 ⟨newcost, adj⟩,
       setCache s.2 adj ⟨newcost, qsidx, eo⟩) := by
  obtain ⟨⟨hA, hB, hD⟩, hQ, hT⟩ := h
  dsimp only [RelaxState, CacheInv, QueueInv]
  have hadj : adj ≠ start_index := by
    intro he
    rw [he, hA] at hguard
    simp at hguard
  have htouched : ∀ i, s.2 i ≠ initState →
      setCache s.2 adj ⟨newcost, qsidx, eo⟩ i ≠ initState := by
    intro i hi
    by_cases hia : i = adj
    · rw [hia, setCache_same]
      exact written_ne_init_prev newcost qsidx eo hqs
    · rw [setCache_other _ _ _ _ hia]
      exact hi
  have hadjt : setCache s.2 adj ⟨newcost, qsidx, eo⟩ adj ≠ initState := by
    rw [setCache_same]
    exact written_ne_init_prev newcost qsidx eo hqs
  refine ⟨⟨?_, ?_, ?_⟩, ?_, ?_⟩
  · rw [setCache_other _ _ _ _ (fun he => hadj he.symm)]
    exact hA
  · intro i hi hp
    by_cases hia : i = adj
    · rw [hia, setCache_same] at hp
      exact absurd hp hqs
    · rw [setCache_other _ _ _ _ hia] at hp ⊢
      exact hB i hi hp
  · intro i hp
    by_cases hia : i = adj
    · rw [hia, setCache_same] at hp ⊢
      rcases hT with h1 | h1
      · exact Or.inl h1
      · exact Or.inr (htouched qsidx h1)
    · rw [setCache_other _ _ _ _ hia] at hp ⊢
      rcases hD i hp with h1 | h1
      · exact Or.inl h1
      · exact Or.inr (htouched _ h1)
  · intro e he
    rcases List.mem_cons.mp he with h1 | h1
    · rw [h1]
      exact Or.inr hadjt
    · rcases hQ e h1 with h2 | h2
      · exact Or.inl h2
      · exact Or.inr (htouched _ h2)
  · rcases hT with h1 | h1
    · exact Or.inl h1
    · exact Or.inr (htouched _ h1)

/-- A teleport-seeding write — strict improvement, predecessor preserved,
edge set to the teleport — preserves the seeding invariant. -/
theorem seed_write_inv (g : NavGrid) (start_index : Nat) (tp : Edge)
    (htp : tp ∈ g.teleports)
    (s : List DijkstraQueueState × RegionCache DijkstraCacheState × List Edge)
    (hguard : tp.cost < (s.2.1 tp.destination.index).cost)
    (h : SeedState g start_index s) :
    SeedState g start_index
      (heapPush s.1 ⟨tp.cost, tp.destination.index⟩,
       setCache s.2.1 tp.destination.index
         ⟨tp.cost, (s.2.1 tp.destination.index).prev, some tp⟩,
       s.2.2 ++ [tp]) := by
  obtain ⟨⟨hA, hB, hD⟩, hQ⟩ := h
  dsimp only [SeedState, CacheInv, QueueInv]
  have hdest : tp.destination.index ≠ start_index := by
    intro he
    rw [he, hA] at hguard
    simp at hguard
  have htouched : ∀ i, s.2.1 i ≠ initState →
      setCache s.2.1 tp.destination.index
        ⟨tp.cost, (s.2.1 tp.destination.index).prev, some tp⟩ i ≠ initState := by
    intro i hi
    by_cases hia : i = tp.destination.index
    · rw [hia, setCache_same]
      exact written_ne_init_edge _ _ tp
    · rw [setCache_other _ _ _ _ hia]
      exact hi
  have hdt : setCache s.2.1 tp.destination.index
      ⟨tp.cost, (s.2.1 tp.destination.index).prev, some tp⟩
      tp.destination.index ≠ initState := by
    rw [setCache_same]
    exact written_ne_init_edge _ _ tp
  refine ⟨⟨?_, ?_, ?_⟩, ?_⟩
  · rw [setCache_other _ _ _ _ (fun he => hdest he.symm)]
    exact hA
  · intro i hi hp
    by_cases hia : i = tp.destination.index
    · rw [hia, setCache_same] at hp ⊢
      refine Or.inr ⟨tp, rfl, htp, hia.symm ▸ rfl⟩
    · rw [setCache_other _ _ _ _ hia] at hp ⊢
      exact hB i hi hp
  · intro i hp
    by_cases hia : i = tp.destination.index
    · rw [hia, setCache_same] at hp ⊢
      rcases hD tp.destination.index hp with h1 | h1
      · exact Or.inl h1
      · exact Or.inr (htouched _ h1)
    · rw [setCache_other _ _ _ _ hia] at hp ⊢
      rcases hD i hp with h1 | h1
      · exact Or.inl h1
      · exact Or.inr (htouched _ h1)
  · intro e he
    rcases List.mem_cons.mp he with h1 | h1
    · rw [h1]
      exact Or.inr hdt
    · rcases hQ e h1 with h2 | h2
      · exact Or.inl h2
      · exact Or.inr (htouched _ h2)

/-- The grid-relaxation pass preserves the invariant. -/
theorem relaxDirs_cinv (g : NavGrid) (start_index : Nat) (W : Nat)
    (v : Vertex) (cost qsidx : Nat) (hqs : qsidx ≠ U32MAX)
    (s : List DijkstraQueueState × RegionCache DijkstraCacheState)
    (h : RelaxState g start_index qsidx s) :
    RelaxState g start_index qsidx (relaxDirs W v cost qsidx s) := by
  unfold relaxDirs
  refine foldl_preserves (RelaxState g start_index qsidx) _ ?_ DIRECTIONS s h
  intro b d hb
  dsimp only
  split_ifs with h1 h2
  · exact relax_write_inv g start_index qsidx hqs b _ _ none h2 hb
  · exact hb
  · exact hb

/-- The extra-edge relaxation pass preserves the invariant. -/
theorem relaxEdges_cinv (g : NavGrid) (start_index : Nat) (gs : GameState)
    (cost qsidx : Nat) (hqs : qsidx ≠ U32MAX) (es : List Edge)
    (s : List DijkstraQueueState × RegionCache DijkstraCacheState)
    (h : RelaxState g start_index qsidx s) :
    RelaxState g start_index qsidx (relaxEdges gs cost qsidx es s) := by
  unfold relaxEdges
  refine foldl_preserves (RelaxState g start_index qsidx) _ ?_ es s h
  intro b e hb
  dsimp only
  split_ifs with h1 h2
  · exact relax_write_inv g start_index qsidx hqs b _ _ (some e) h2 hb
  · exact hb
  · exact hb

/-- foldl preserves an invariant whose step only needs a property of the
elements of the folded list. -/
theorem foldl_preserves_mem {α β : Type} (P : β → Prop) (Q : α → Prop)
    (f : β → α → β) (hf : ∀ b a, Q a → P b → P (f b a)) :
    ∀ (l : List α), (∀ a ∈ l, Q a) → ∀ b, P b → P (l.foldl f b) := by
  intro l
  induction l with
  | nil => intro _ b hb; exact hb
  | cons x xs ih =>
    intro hl b hb
    exact ih (fun a ha => hl a (List.mem_cons_of_mem x ha)) (f b x)
      (hf b x (hl x (List.mem_cons_self x xs)) hb)

/-- Teleport seeding preserves the invariant when every folded teleport is
a teleport of the grid. -/
theorem seedTeleports_cinv (g : NavGrid) (start_index : Nat) (gs : GameState)
    (ts : List Edge) (hts : ∀ t ∈ ts, t ∈ g.teleports)
    (s : List DijkstraQueueState × RegionCache DijkstraCacheState × List Edge)
    (h : SeedState g start_index s) :
    SeedState g start_index (seedTeleports gs ts s) := by
  unfold seedTeleports
  refine foldl_preserves_mem (SeedState g start_index)
    (fun t => t ∈ g.teleports) _ ?_ ts hts s h
  intro b t htp hb
  dsimp only
  split_ifs with h1 h2
  · exact seed_write_inv g start_index t htp b h2 hb
  · exact hb
  · exact hb

/-- The extracted frontier entry is an element of the queue and the
remaining entries were already queued. -/
theorem popMax_mem_sub :
    ∀ (q : List DijkstraQueueState) (x : DijkstraQueueState)
      (rest : List DijkstraQueueState), popMax q = some (x, rest) →
      x ∈ q ∧ ∀ e ∈ rest, e ∈ q := by
  intro q
  induction q with
  | nil => intro x rest h; simp [popMax] at h
  | cons a as ih =>
    intro x rest h
    rcases hm : popMax as with _ | ⟨m, mrest⟩
    · have has : as = [] := by
        cases as with
        | nil => rfl
        | cons b bs =>
          have hbs := popMax_cons_isSome b bs
          rw [hm] at hbs
          simp at hbs
      subst has
      simp only [popMax, hm] at h
      injection h with h1
      injection h1 with h2 h3
      subst h2
      subst h3
      exact ⟨List.mem_cons_self _ _, by intro e he; simp at he⟩
    · simp only [popMax, hm] at h
      by_cases hlt : DQScmp a m = Ordering.lt
      · rw [if_pos hlt] at h
        injection h with h1
        injection h1 with h2 h3
        subst h2
        subst h3
        obtain ⟨hmm, hsub⟩ := ih m mrest hm
        refine ⟨List.mem_cons_of_mem a hmm, ?_⟩
        intro e he
        rcases List.mem_cons.mp he with h4 | h4
        · rw [h4]
          exact List.mem_cons_self a as
        · exact List.mem_cons_of_mem a (hsub e h4)
      · rw [if_neg hlt] at h
        injection h with h1
        injection h1 with h2 h3
        subst h2
        subst h3
        exact ⟨List.mem_cons_self a as, fun e he => List.mem_cons_of_mem a he⟩

/-- The main loop preserves the cache invariant: whenever it returns a
successful route, the final scratch store satisfies the invariant, the end
cell is the start cell or touched, and the route's reconstruction from the
final store succeeds.  Requires the grid's cell count to stay below the
u32::MAX sentinel, so that relaxing cells never store the sentinel as a
predecessor. -/
theorem dijkstraLoop_cinv (W : Nat) (g : NavGrid) (gs : GameState)
    (end_index : Nat) (prints : List Edge) (rfuel : Nat) (start_index : Nat)
    (hlen : g.vertices.length ≤ U32MAX) :
    ∀ (fuel : Nat) (q : List DijkstraQueueState)
      (c : RegionCache DijkstraCacheState) (tr : List (Nat × Nat × Nat))
      (path : List Step),
      CacheInv g start_index c → QueueInv start_index c q →
      (dijkstraLoop W g gs end_index prints rfuel fuel q c tr).result =
        DijkstraOutcome.success path →
      CacheInv g start_index
          (dijkstraLoop W g gs end_index prints rfuel fuel q c tr).cacheF ∧
        (end_index = start_index ∨
          (dijkstraLoop W g gs end_index prints rfuel fuel q c tr).cacheF
              end_index ≠ initState) ∧
        ∃ steps, reconstruct
            (dijkstraLoop W g gs end_index prints rfuel fuel q c tr).cacheF
            rfuel end_index = some steps := by
  intro fuel
  induction fuel with
  | zero =>
    intro q c tr path hC hQ hres
    cases hq : popMax q with
    | none => simp [dijkstraLoop, hq] at hres
    | some pr => simp [dijkstraLoop, hq] at hres
  | succ n ih =>
    intro q c tr path hC hQ hres
    cases hq : popMax q with
    | none => simp [dijkstraLoop, hq] at hres
    | some pr =>
      obtain ⟨qs, q1⟩ := pr
      obtain ⟨hqmem, hqsub⟩ := popMax_mem_sub q qs q1 hq
      simp only [dijkstraLoop, hq] at hres ⊢
      by_cases he : qs.index = end_index
      · rw [if_pos he] at hres ⊢
        revert hres
        cases hrec : reconstruct c rfuel qs.index with
        | none =>
          intro hres
          simp at hres
        | some l =>
          intro hres
          refine ⟨hC, ?_, ⟨l, ?_⟩⟩
          · rcases hQ qs hqmem with h1 | h1
            · exact Or.inl (he ▸ h1)
            · exact Or.inr (he ▸ h1)
          · rw [← he]
            exact hrec
      · rw [if_neg he] at hres ⊢
        by_cases hv : qs.index < g.vertices.length
        · rw [dif_pos hv] at hres ⊢
          have hqsne : qs.index ≠ U32MAX := by
            unfold U32MAX at *
            omega
          have hrel : RelaxState g start_index qs.index (q1, c) := by
            refine ⟨hC, ?_, ?_⟩
            · intro e heq
              exact hQ e (hqsub e heq)
            · exact hQ qs hqmem
          have h3 := relaxDirs_cinv g start_index W
            (g.vertices.get ⟨qs.index, hv⟩) qs.cost qs.index hqsne (q1, c) hrel
          by_cases hx : (g.vertices.get ⟨qs.index, hv⟩).has_extra_edges = true
          · rw [if_pos hx] at hres ⊢
            revert hres
            cases hgv : g.get_vec qs.index with
            | none =>
              intro hres
              simp at hres
            | some es =>
              intro hres
              have h4 := relaxEdges_cinv g start_index gs qs.cost qs.index
                hqsne es _ h3
              exact ih _ _ _ path h4.1 h4.2.1 hres
          · rw [if_neg hx] at hres ⊢
            exact ih _ _ _ path h3.1 h3.2.1 hres
        · rw [dif_neg hv] at hres
          simp at hres

/-- dijkstra-level packaging of the invariant: a successful search leaves a
scratch store satisfying the invariant, with the end cell touched (or equal
to start) and in range, and with a successful reconstruction from it. -/
theorem dijkstra_cinv (W : Nat) (g : NavGrid) (start endc : Coordinate)
    (gs : GameState) (fuel : Nat) (hlen : g.vertices.length ≤ U32MAX)
    (path : List Step)
    (hres : (dijkstra W g start endc gs fuel).result =
      DijkstraOutcome.success path) :
    CacheInv g start.index ((dijkstra W g start endc gs fuel).cacheF) ∧
      (endc.index = start.index ∨
        (dijkstra W g start endc gs fuel).cacheF endc.index ≠ initState) ∧
      endc.index < g.vertices.length ∧
      ∃ steps, reconstruct ((dijkstra W g start endc gs fuel).cacheF) fuel
        endc.index = some steps := by
  unfold dijkstra at hres ⊢
  by_cases hs : start.index < g.vertices.length
  · rw [dif_pos hs] at hres ⊢
    by_cases he2 : endc.index < g.vertices.length
    · rw [dif_pos he2] at hres ⊢
      by_cases hg : (g.vertices.get ⟨start.index, hs⟩).get_group ≠
          (g.vertices.get ⟨endc.index, he2⟩).get_group
      · rw [if_pos hg] at hres
        simp at hres
      · rw [if_neg hg] at hres ⊢
        have hinit : SeedState g start.index
            ([⟨0, start.index⟩],
             setCache (RegionCache.new initState) start.index ⟨0, U32MAX, none⟩,
             []) := by
          dsimp only [SeedState, CacheInv, QueueInv]
          refine ⟨⟨?_, ?_, ?_⟩, ?_⟩
          · exact setCache_same _ _ _
          · intro i hi _
            left
            rw [setCache_other _ _ _ _ hi]
            rfl
          · intro i hp
            exfalso
            apply hp
            by_cases hi : i = start.index
            · rw [hi, setCache_same]
            · rw [setCache_other _ _ _ _ hi]
              rfl
          · intro e heq
            simp only [List.mem_singleton] at heq
            rw [heq]
            exact Or.inl rfl
        have hseed := seedTeleports_cinv g start.index gs g.teleports
          (fun t ht => ht) _ hinit
        have hloop := dijkstraLoop_cinv W g gs endc.index _ fuel start.index
          hlen fuel _ _ [] path hseed.1 hseed.2 hres
        exact ⟨hloop.1, hloop.2.1, he2, hloop.2.2⟩
    · rw [dif_neg he2] at hres
      simp at hres
  · rw [dif_neg hs] at hres
    simp at hres

/-- Whenever route reconstruction succeeds, the predecessor-chain walk from
the same cell with the same fuel succeeds too. -/
theorem reconstruct_chain (cache : RegionCache DijkstraCacheState) :
    ∀ (fuel i : Nat) (steps : List Step), reconstruct cache fuel i = some steps →
      ∃ l, chainIndices cache fuel i = some l := by
  intro fuel
  induction fuel with
  | zero => intro i steps h; simp [reconstruct] at h
  | succ n ih =>
    intro i steps h
    by_cases hi : i = U32MAX
    · exact ⟨[], by simp [chainIndices, hi]⟩
    · simp only [reconstruct, if_neg hi] at h
      cases hrec : reconstruct cache n (cache i).prev with
      | none =>
        rw [hrec] at h
        simp at h
      | some steps' =>
        rcases ih (cache i).prev steps' hrec with ⟨l', hl'⟩
        exact ⟨i :: l', by simp [chainIndices, if_neg hi, hl']⟩

/-- Walking the predecessor chain under the cache invariant: from any cell
that is the start cell or touched, the chain's last cell has the sentinel
predecessor and is the start cell or a teleport destination carrying its
teleport in the edge field. -/
theorem chainIndices_last (g : NavGrid) (start_index : Nat)
    (cache : RegionCache DijkstraCacheState)
    (hB : ∀ i, i ≠ start_index → (cache i).prev = U32MAX →
      cache i = initState ∨
        ∃ t, (cache i).edge = some t ∧ t ∈ g.teleports ∧
          t.destination.index = i)
    (hD : ∀ i, (cache i).prev ≠ U32MAX →
      ((cache i).prev = start_index ∨ cache ((cache i).prev) ≠ initState)) :
    ∀ (fuel i : Nat) (l : List Nat), chainIndices cache fuel i = some l →
      i ≠ U32MAX → (i = start_index ∨ cache i ≠ initState) →
      ∃ c, l.getLast? = some c ∧ (cache c).prev = U32MAX ∧
        (c = start_index ∨
          ∃ t, (cache c).edge = some t ∧ t ∈ g.teleports ∧
            t.destination.index = c) := by
  intro fuel
  induction fuel with
  | zero => intro i l h hi _; simp [chainIndices] at h
  | succ n ih =>
    intro i l h hi htouch
    simp only [chainIndices, if_neg hi] at h
    cases hinner : chainIndices cache n (cache i).prev with
    | none =>
      rw [hinner] at h
      simp at h
    | some l' =>
      rw [hinner] at h
      simp only [Option.map_some'] at h
      injection h with h2
      subst h2
      by_cases hp : (cache i).prev = U32MAX
      · rw [hp] at hinner
        cases n with
        | zero => simp [chainIndices] at hinner
        | succ m =>
          simp only [chainIndices, if_pos rfl] at hinner
          injection hinner with h3
          subst h3
          refine ⟨i, rfl, hp, ?_⟩
          by_cases hs : i = start_index
          · exact Or.inl hs
          · rcases htouch with h4 | h4
            · exact absurd h4 hs
            · rcases hB i hs hp with h5 | h5
              · exact absurd h5 h4
              · exact Or.inr h5
      · rcases ih (cache i).prev l' hinner hp (hD i hp) with ⟨c, hc1, hc2, hc3⟩
        refine ⟨c, ?_, hc2, hc3⟩
        cases l' with
        | nil => simp at hc1
        | cons a l'' =>
          rw [List.getLast?_cons_cons]
          exact hc1

/-- C5 (amended): for every successful search — route seeded by a teleport
or not — the predecessor chain read from the final scratch store, followed
backward from the end cell, terminates (within the call's fuel) at a cell
whose predecessor field is the u32::MAX sentinel, and that cell is either
the start cell or the destination of a grid teleport recorded in its
edge-used field; it is not always the start cell, because teleport seeding
sets cost and edge-used but leaves the predecessor at the sentinel (the
update at line 57 is commented out).  Assumes the documented sentinel
condition that the grid's cell count stays below u32::MAX. -/
theorem dijkstra_chain_endpoints :
    ∀ (W : Nat) (g : NavGrid) (start endc : Coordinate) (gs : GameState)
      (fuel : Nat) (path : List Step),
      g.vertices.length ≤ U32MAX →
      (dijkstra W g start endc gs fuel).result =
        DijkstraOutcome.success path →
      ∃ (l : List Nat) (c : Nat),
        chainIndices (dijkstra W g start endc gs fuel).cacheF fuel
            endc.index = some l ∧
          l.getLast? = some c ∧
          ((dijkstra W g start endc gs fuel).cacheF c).prev = U32MAX ∧
          (c = start.index ∨
            ∃ t, ((dijkstra W g start endc gs fuel).cacheF c).edge = some t ∧
              t ∈ g.teleports ∧ t.destination.index = c) := by
  intro W g start endc gs fuel path hlen hres
  obtain ⟨⟨hA, hB, hD⟩, htouch, hend, ⟨steps, hrec⟩⟩ :=
    dijkstra_cinv W g start endc gs fuel hlen path hres
  obtain ⟨l, hl⟩ := reconstruct_chain _ fuel endc.index steps hrec
  have hne : endc.index ≠ U32MAX := by
    unfold U32MAX at *
    omega
  obtain ⟨c, hc1, hc2, hc3⟩ := chainIndices_last g start.index _ hB hD fuel
    endc.index l hl hne htouch
  exact ⟨l, c, hl, hc1, hc2, hc3⟩

/-- C5 witness: dijkstra_chain_endpoints on the run whose route begins with
the cost-1 teleport to cell 5 — the chain ends at the teleport destination,
not at the start cell. -/
theorem dijkstra_chain_endpoints_witness :
    tpG5.vertices.length ≤ U32MAX ∧
      (dijkstra 4 tpG5 ⟨0⟩ ⟨5⟩ gsF 32).result =
        DijkstraOutcome.success [Step.Edge 99] ∧
      ∃ (l : List Nat) (c : Nat),
        chainIndices (dijkstra 4 tpG5 ⟨0⟩ ⟨5⟩ gsF 32).cacheF 32 5 = some l ∧
          l.getLast? = some c ∧
          ((dijkstra 4 tpG5 ⟨0⟩ ⟨5⟩ gsF 32).cacheF c).prev = U32MAX ∧
          (c = 0 ∨
            ∃ t, ((dijkstra 4 tpG5 ⟨0⟩ ⟨5⟩ gsF 32).cacheF c).edge = some t ∧
              t ∈ tpG5.teleports ∧ t.destination.index = c) :=
  ⟨by decide, by decide,
    dijkstra_chain_endpoints 4 tpG5 ⟨0⟩ ⟨5⟩ gsF 32 [Step.Edge 99]
      (by decide) (by decide)⟩
